import Mathlib

/-!
Shallow embedding of the `spatial-touch` gesture-recognition core
(`spatial_touch/utils/smoothing.py`, `spatial_touch/core/gesture_engine.py`,
`spatial_touch/core/zone_mapper.py`), with theorems settling the spec claims.

Real-valued (`float`) quantities are modelled as rationals; Python's `int(...)`
truncation toward zero is modelled by `pyInt`; a constructor that may raise a
`ValueError` is modelled as a function returning `Option` (with `none` for the
raise).  The Euclidean landmark distance (`Point3D.distance_to`, which uses a
square root) is abstracted as a function parameter, since only its comparison
against a threshold influences the control flow that the claims are about.
-/

namespace SpatialTouch

/-- Python `int(q)` for a rational `q`: truncation toward zero. -/
def pyInt (q : ℚ) : ℤ := if 0 ≤ q then ⌊q⌋ else ⌈q⌉

/-! ## `smoothing.py`: ExponentialMovingAverage -/

/-- State of `ExponentialMovingAverage`: fields `alpha`, `_value`, `_initialized`. -/
structure ExponentialMovingAverage where
  alpha : ℚ
  value : Option ℚ
  initialized : Bool
  deriving DecidableEq, Repr

namespace ExponentialMovingAverage

/-- The field state produced by `__init__` once validation has passed. -/
def new (alpha : ℚ) : ExponentialMovingAverage := ⟨alpha, none, false⟩

/-- `__init__`: raises (here `none`) unless `0.0 <= alpha <= 1.0`. -/
def mk? (alpha : ℚ) : Option ExponentialMovingAverage :=
  if 0 ≤ alpha ∧ alpha ≤ 1 then some (new alpha) else none

/-- `update(new_value)`: returns the smoothed value and the new state. -/
def update (e : ExponentialMovingAverage) (new_value : ℚ) :
    ℚ × ExponentialMovingAverage :=
  if e.initialized = false then
    (new_value, { e with value := some new_value, initialized := true })
  else
    let v := e.alpha * new_value + (1 - e.alpha) * e.value.getD 0
    (v, { e with value := some v })

/-- `reset()`. -/
def reset (e : ExponentialMovingAverage) : ExponentialMovingAverage :=
  { e with value := none, initialized := false }

/-- `set_alpha(alpha)`: raises (here `none`) unless `0.0 <= alpha <= 1.0`. -/
def set_alpha? (e : ExponentialMovingAverage) (alpha : ℚ) :
    Option ExponentialMovingAverage :=
  if 0 ≤ alpha ∧ alpha ≤ 1 then some { e with alpha := alpha } else none

end ExponentialMovingAverage

/-! ## `smoothing.py`: MovingAverage -/

/-- State of `MovingAverage`: `window_size`, the deque `_values`
(oldest first), and the running `_sum`. -/
structure MovingAverage where
  window_size : ℕ
  values : List ℚ
  sum : ℚ
  deriving DecidableEq, Repr

namespace MovingAverage

/-- `__init__(window_size)`: raises (here `none`) when `window_size < 1`. -/
def mk? (window_size : ℤ) : Option MovingAverage :=
  if window_size < 1 then none else some ⟨window_size.toNat, [], 0⟩

/-- `update(new_value)`: drop the oldest value from the running sum when the
window is full (the bounded deque then also discards it on append), append the
new value and return the average. -/
def update (m : MovingAverage) (new_value : ℚ) : ℚ × MovingAverage :=
  if m.values.length = m.window_size then
    let vals := m.values.tail ++ [new_value]
    let s := m.sum - m.values.headD 0 + new_value
    (s / (vals.length : ℚ), ⟨m.window_size, vals, s⟩)
  else
    let vals := m.values ++ [new_value]
    let s := m.sum + new_value
    (s / (vals.length : ℚ), ⟨m.window_size, vals, s⟩)

/-- `reset()`. -/
def reset (m : MovingAverage) : MovingAverage :=
  { m with values := [], sum := 0 }

end MovingAverage

/-! ## `smoothing.py`: DoubleExponentialSmoothing -/

/-- State of `DoubleExponentialSmoothing`: `alpha`, `beta`, `_level`,
`_trend`, `_initialized`. -/
structure DoubleExponentialSmoothing where
  alpha : ℚ
  beta : ℚ
  level : Option ℚ
  trend : Option ℚ
  initialized : Bool
  deriving DecidableEq, Repr

namespace DoubleExponentialSmoothing

/-- `__init__(alpha, beta)`: performs no range validation at all, so it is
total (always `some`).  Kept `Option`-valued so that it can be compared with
the other constructors of the family. -/
def mk? (alpha beta : ℚ) : Option DoubleExponentialSmoothing :=
  some ⟨alpha, beta, none, none, false⟩

/-- `update(new_value)`. -/
def update (d : DoubleExponentialSmoothing) (new_value : ℚ) :
    ℚ × DoubleExponentialSmoothing :=
  if d.initialized = false then
    let d' := { d with level := some new_value, trend := some 0,
                       initialized := true }
    (new_value + 0, d')
  else
    let prev_level := d.level.getD 0
    let level := d.alpha * new_value + (1 - d.alpha) * (prev_level + d.trend.getD 0)
    let trend := d.beta * (level - prev_level) + (1 - d.beta) * d.trend.getD 0
    (level + trend, { d with level := some level, trend := some trend })

/-- `reset()`. -/
def reset (d : DoubleExponentialSmoothing) : DoubleExponentialSmoothing :=
  { d with level := none, trend := none, initialized := false }

end DoubleExponentialSmoothing

/-! ## `smoothing.py`: OneEuroFilter -/

/-- State of `OneEuroFilter`: parameters plus `_x_filter`, `_dx_filter`,
`_last_value`, `_last_time`. -/
structure OneEuroFilter where
  min_cutoff : ℚ
  beta : ℚ
  d_cutoff : ℚ
  x_filter : Option ExponentialMovingAverage
  dx_filter : Option ExponentialMovingAverage
  last_value : Option ℚ
  last_time : Option ℚ
  deriving DecidableEq, Repr

namespace OneEuroFilter

/-- `update(value, timestamp)`.  The private `_alpha(cutoff, dt)` helper computes
`1/(1 + (1/(2·π·cutoff))/dt)`, an irrational quantity; it is abstracted here as
the parameter `alphaFn`.  `none` models an uncaught exception (only possible
through `set_alpha` should `alphaFn` produce an out-of-range alpha). -/
def update (alphaFn : ℚ → ℚ → ℚ) (f : OneEuroFilter) (value timestamp : ℚ) :
    Option (ℚ × OneEuroFilter) :=
  match f.last_time with
  | none =>
      some (value,
        { f with last_value := some value, last_time := some timestamp,
                 x_filter := some (ExponentialMovingAverage.new (1/2)),
                 dx_filter := some (ExponentialMovingAverage.new (1/2)) })
  | some lt =>
      let dt := timestamp - lt
      if dt ≤ 0 then
        some (f.last_value.getD 0, f)
      else
        let dx := (value - f.last_value.getD 0) / dt
        let d_alpha := alphaFn f.d_cutoff dt
        match (f.dx_filter.getD (ExponentialMovingAverage.new (1/2))).set_alpha? d_alpha with
        | none => none
        | some dxf =>
            let dxres := dxf.update dx
            let cutoff := f.min_cutoff + f.beta * |dxres.1|
            let x_alpha := alphaFn cutoff dt
            match (f.x_filter.getD (ExponentialMovingAverage.new (1/2))).set_alpha? x_alpha with
            | none => none
            | some xf =>
                let xres := xf.update value
                some (xres.1,
                  { f with x_filter := some xres.2, dx_filter := some dxres.2,
                           last_value := some xres.1, last_time := some timestamp })

/-- `reset()`. -/
def reset (f : OneEuroFilter) : OneEuroFilter :=
  { f with x_filter := none, dx_filter := none,
           last_value := none, last_time := none }

end OneEuroFilter

/-! ## `hand_tracker.py`: Point3D and HandData -/

/-- `Point3D`: a named tuple of three normalized coordinates. -/
structure Point3D where
  x : ℚ
  y : ℚ
  z : ℚ
  deriving DecidableEq, Repr

/-- `HandData` (only the fields the gesture engine reads). -/
structure HandData where
  landmarks : List Point3D
  is_valid : Bool
  deriving DecidableEq, Repr

namespace HandData

/-- `_get_landmark(index)`: `some` only when the hand is valid and the index is
inside the landmark list. -/
def getLandmark (h : HandData) (i : ℕ) : Option Point3D :=
  if h.is_valid ∧ i < h.landmarks.length then h.landmarks.get? i else none

/-- `thumb_tip` property (`HandLandmark.THUMB_TIP = 4`). -/
def thumb_tip (h : HandData) : Option Point3D := h.getLandmark 4

/-- `index_tip` property (`HandLandmark.INDEX_TIP = 8`). -/
def index_tip (h : HandData) : Option Point3D := h.getLandmark 8

/-- `middle_tip` property (`HandLandmark.MIDDLE_TIP = 12`). -/
def middle_tip (h : HandData) : Option Point3D := h.getLandmark 12

end HandData

/-! ## `gesture_engine.py`: types, PinchDetector, GestureEngine -/

/-- `GestureType` enum. -/
inductive GestureType where
  | NONE | CURSOR_MOVE | LEFT_CLICK | RIGHT_CLICK
  | DRAG_START | DRAG_MOVE | DRAG_END | SCROLL_UP | SCROLL_DOWN
  deriving DecidableEq, Repr

/-- `GestureState` enum. -/
inductive GestureState where
  | IDLE | TRIGGERED | HOLDING | RELEASED
  deriving DecidableEq, Repr

/-- A detected `Gesture` (type, normalized position, and the `delta` metadata
entry that cursor-move gestures carry). -/
structure Gesture where
  type : GestureType
  position : ℚ × ℚ
  delta : Option (ℚ × ℚ) := none
  deriving DecidableEq, Repr

/-- `GestureConfig`. -/
structure GestureConfig where
  pinch_threshold : ℚ
  debounce_ms : ℚ
  hold_time_ms : ℚ
  click_release_ms : ℚ
  velocity_threshold : ℚ
  deriving DecidableEq, Repr

/-- State of a `PinchDetector`.  Wall-clock time (`time.time() * 1000`) is made
an explicit argument of `update`, in milliseconds. -/
structure PinchDetector where
  threshold : ℚ
  debounce_ms : ℚ
  hold_ms : ℚ
  state : GestureState
  pinch_start_time : Option ℚ
  last_trigger_time : ℚ
  is_pinched : Bool
  was_pinched : Bool
  deriving DecidableEq, Repr

namespace PinchDetector

/-- `__init__(threshold, debounce_ms, hold_ms)`. -/
def new (threshold debounce_ms hold_ms : ℚ) : PinchDetector :=
  ⟨threshold, debounce_ms, hold_ms, GestureState.IDLE, none, 0, false, false⟩

/-- `update(distance)` at wall-clock time `now` (ms).  The returned value of
the Python method is the new `_state` field of the result.  Note the guard
`elif self._pinch_start_time:` tests Python truthiness, so a stored start time
of exactly `0` is skipped. -/
def update (d : PinchDetector) (now distance : ℚ) : PinchDetector :=
  let d := { d with was_pinched := d.is_pinched,
                    is_pinched := decide (distance < d.threshold) }
  match d.state with
  | GestureState.IDLE =>
      if d.is_pinched then
        if now - d.last_trigger_time > d.debounce_ms then
          { d with state := GestureState.TRIGGERED, pinch_start_time := some now }
        else d
      else d
  | GestureState.TRIGGERED =>
      if ¬ d.is_pinched then
        { d with state := GestureState.RELEASED, last_trigger_time := now }
      else
        match d.pinch_start_time with
        | some st =>
            if st ≠ 0 ∧ now - st > d.hold_ms then
              { d with state := GestureState.HOLDING }
            else d
        | none => d
  | GestureState.HOLDING =>
      if ¬ d.is_pinched then
        { d with state := GestureState.RELEASED, last_trigger_time := now }
      else d
  | GestureState.RELEASED =>
      { d with state := GestureState.IDLE, pinch_start_time := none }

/-- `reset()` (note: `_last_trigger_time` is not cleared). -/
def reset (d : PinchDetector) : PinchDetector :=
  { d with state := GestureState.IDLE, pinch_start_time := none,
           is_pinched := false, was_pinched := false }

end PinchDetector

/-- State of the `GestureEngine`. -/
structure GestureEngine where
  config : GestureConfig
  left_pinch : PinchDetector
  right_pinch : PinchDetector
  last_position : Option (ℚ × ℚ)
  is_dragging : Bool
  deriving DecidableEq, Repr

/-- Result of one `process` call: the returned gesture list, the gestures
handed to `_trigger_callbacks` (in dispatch order), and the new engine state. -/
structure ProcessResult where
  returned : List Gesture
  dispatched : List Gesture
  engine : GestureEngine
  deriving DecidableEq, Repr

namespace GestureEngine

/-- `_process_cursor_move(position)`. -/
def processCursorMove (cfg : GestureConfig) (last : Option (ℚ × ℚ))
    (position : ℚ × ℚ) : Option Gesture :=
  match last with
  | none => none
  | some lp =>
      let dx := |position.1 - lp.1|
      let dy := |position.2 - lp.2|
      if dx > cfg.velocity_threshold ∨ dy > cfg.velocity_threshold then
        some ⟨GestureType.CURSOR_MOVE, position, some (dx, dy)⟩
      else none

/-- `_process_left_pinch(state, position)`: returns the emitted gestures and
the new `_is_dragging` flag. -/
def processLeftPinch (state : GestureState) (position : ℚ × ℚ)
    (dragging : Bool) : List Gesture × Bool :=
  match state with
  | GestureState.TRIGGERED => ([], dragging)
  | GestureState.HOLDING =>
      if ¬ dragging then ([⟨GestureType.DRAG_START, position, none⟩], true)
      else ([⟨GestureType.DRAG_MOVE, position, none⟩], dragging)
  | GestureState.RELEASED =>
      if dragging then ([⟨GestureType.DRAG_END, position, none⟩], false)
      else ([⟨GestureType.LEFT_CLICK, position, none⟩], dragging)
  | GestureState.IDLE => ([], dragging)

/-- `_process_right_pinch(state, position)`. -/
def processRightPinch (state : GestureState) (position : ℚ × ℚ) :
    Option Gesture :=
  if state = GestureState.RELEASED then
    some ⟨GestureType.RIGHT_CLICK, position, none⟩
  else none

/-- `_reset_on_no_hand()`: dispatches a `DRAG_END` to callbacks when a drag is
active (the event is not part of any returned list), then resets both
detectors and clears the stored position. -/
def resetOnNoHand (e : GestureEngine) : ProcessResult :=
  let dispatched :=
    if e.is_dragging then
      [⟨GestureType.DRAG_END, e.last_position.getD (0, 0), none⟩]
    else []
  { returned := [],
    dispatched := dispatched,
    engine := { e with is_dragging := false,
                       left_pinch := e.left_pinch.reset,
                       right_pinch := e.right_pinch.reset,
                       last_position := none } }

/-- `process(hand)` at wall-clock time `now` (ms).  `dist` abstracts
`Point3D.distance_to` (a Euclidean distance, hence a square root). -/
def process (dist : Point3D → Point3D → ℚ) (e : GestureEngine) (now : ℚ)
    (hand : HandData) : ProcessResult :=
  if hand.is_valid = false then
    resetOnNoHand e
  else
    match hand.thumb_tip, hand.index_tip, hand.middle_tip with
    | some thumb, some index, some middle =>
        let cursor_pos := (index.x, index.y)
        let left_distance := dist thumb index
        let right_distance := dist thumb middle
        let lp := e.left_pinch.update now left_distance
        let rp := e.right_pinch.update now right_distance
        let cursorGesture := processCursorMove e.config e.last_position cursor_pos
        let lpres := processLeftPinch lp.state cursor_pos e.is_dragging
        let rightGesture := processRightPinch rp.state cursor_pos
        let gestures := cursorGesture.toList ++ lpres.1 ++ rightGesture.toList
        { returned := gestures,
          dispatched := gestures,
          engine := { e with left_pinch := lp, right_pinch := rp,
                             is_dragging := lpres.2,
                             last_position := some cursor_pos } }
    | _, _, _ => { returned := [], dispatched := [], engine := e }

end GestureEngine

/-! ## `zone_mapper.py`: ZoneConfig, ScreenPoint, ZoneMapper -/

/-- `ScreenPoint`: pixel coordinates. -/
structure ScreenPoint where
  x : ℤ
  y : ℤ
  deriving DecidableEq, Repr

/-- `ZoneConfig` (the fields `map_position` reads). -/
structure ZoneConfig where
  screen_width : ℤ
  screen_height : ℤ
  sensitivity : ℚ
  dead_zone : ℚ
  invert_x : Bool
  invert_y : Bool
  margin : ℤ
  smoothing : ℚ
  deriving DecidableEq, Repr

namespace ZoneMapper

/-- The pre-smoothing part of `map_position` (inversion, sensitivity scaling
about the center, clamp to `[0,1]`, `int(x * dimension)` truncation, margin
clamp), factored out of the method body for reuse in the statements below. -/
def rawScreen (cfg : ZoneConfig) (pos : ℚ × ℚ) : ℤ × ℤ :=
  let x := if cfg.invert_x then 1 - pos.1 else pos.1
  let y := if cfg.invert_y then 1 - pos.2 else pos.2
  let x := if cfg.sensitivity ≠ 1 then 1/2 + (x - 1/2) * cfg.sensitivity else x
  let y := if cfg.sensitivity ≠ 1 then 1/2 + (y - 1/2) * cfg.sensitivity else y
  let x := max 0 (min 1 x)
  let y := max 0 (min 1 y)
  (max cfg.margin (min (cfg.screen_width - cfg.margin) (pyInt (x * cfg.screen_width))),
   max cfg.margin (min (cfg.screen_height - cfg.margin) (pyInt (y * cfg.screen_height))))

/-- `map_position(normalized_pos)`: the mapper's only mutable state is
`_last_position`, passed explicitly; the result is also the new stored
position. -/
def map_position (cfg : ZoneConfig) (last : Option ScreenPoint)
    (pos : ℚ × ℚ) : ScreenPoint :=
  let screen_x := (rawScreen cfg pos).1
  let screen_y := (rawScreen cfg pos).2
  match last with
  | some lp =>
      if cfg.smoothing > 0 then
        let alpha := 1 - cfg.smoothing
        ⟨pyInt (alpha * screen_x + cfg.smoothing * lp.x),
         pyInt (alpha * screen_y + cfg.smoothing * lp.y)⟩
      else ⟨screen_x, screen_y⟩
  | none => ⟨screen_x, screen_y⟩

/-- Running `map_position` over a whole input sequence, threading the stored
last position; returns the list of results. -/
def mapRun (cfg : ZoneConfig) (last : Option ScreenPoint) :
    List (ℚ × ℚ) → List ScreenPoint
  | [] => []
  | p :: ps =>
      let q := map_position cfg last p
      q :: mapRun cfg (some q) ps

end ZoneMapper

/-- The last `n` elements of a list (all of it when it is shorter). -/
def lastN (l : List ℚ) (n : ℕ) : List ℚ := l.drop (l.length - n)

/-- Folding `MovingAverage.update` over a whole input sequence, keeping the
final state. -/
def MovingAverage.runState (m : MovingAverage) : List ℚ → MovingAverage
  | [] => m
  | v :: vs => MovingAverage.runState (m.update v).2 vs

/-- The window invariant tying a `MovingAverage` state to the history of
inputs it has absorbed. -/
def MovingAverage.tracks (m : MovingAverage) (hist : List ℚ) : Prop :=
  m.values = lastN hist m.window_size ∧ m.sum = (lastN hist m.window_size).sum

/-- Steps 1–5 of the spec's `map_position` pipeline (§4.4): inversion,
sensitivity scaling about the center, clamp to `[0,1]`, scale to pixels with
`floor`, clamp into `[margin, dimension−margin]`.  Written from the spec's
words, to be compared with the code's `map_position`. -/
def specRawScreen (cfg : ZoneConfig) (pos : ℚ × ℚ) : ℤ × ℤ :=
  let x := if cfg.invert_x then 1 - pos.1 else pos.1
  let y := if cfg.invert_y then 1 - pos.2 else pos.2
  let x := if cfg.sensitivity ≠ 1 then 1/2 + (x - 1/2) * cfg.sensitivity else x
  let y := if cfg.sensitivity ≠ 1 then 1/2 + (y - 1/2) * cfg.sensitivity else y
  let x := max 0 (min 1 x)
  let y := max 0 (min 1 y)
  let screen_x := ⌊x * cfg.screen_width⌋
  let screen_y := ⌊y * cfg.screen_height⌋
  (max cfg.margin (min (cfg.screen_width - cfg.margin) screen_x),
   max cfg.margin (min (cfg.screen_height - cfg.margin) screen_y))

/-- A screen point lying inside the margin box of a configuration. -/
def inMarginBox (cfg : ZoneConfig) (q : ScreenPoint) : Prop :=
  cfg.margin ≤ q.x ∧ q.x ≤ cfg.screen_width - cfg.margin ∧
  cfg.margin ≤ q.y ∧ q.y ≤ cfg.screen_height - cfg.margin

/-- A concrete engine state with an active drag, used to exercise the
invalid-hand path. -/
def dragEngine : GestureEngine :=
  { config := ⟨1/20, 200, 300, 200, 1/100⟩,
    left_pinch := PinchDetector.new (1/20) 200 300,
    right_pinch := PinchDetector.new (1/20) 200 300,
    last_position := some (1/2, 1/2),
    is_dragging := true }

/-- A concrete engine state about to observe a cursor movement. -/
def cursorEngine : GestureEngine :=
  { config := ⟨1/20, 200, 300, 200, 1/100⟩,
    left_pinch := PinchDetector.new (1/20) 200 300,
    right_pinch := PinchDetector.new (1/20) 200 300,
    last_position := some (0, 0),
    is_dragging := false }

/-- A valid hand whose index tip sits at `(1/2, 1/2)`. -/
def moveHand : HandData :=
  { landmarks :=
      [⟨0,0,0⟩, ⟨0,0,0⟩, ⟨0,0,0⟩, ⟨0,0,0⟩, ⟨0,0,0⟩, ⟨0,0,0⟩, ⟨0,0,0⟩, ⟨0,0,0⟩,
       ⟨1/2,1/2,0⟩, ⟨0,0,0⟩, ⟨0,0,0⟩, ⟨0,0,0⟩, ⟨0,0,0⟩],
    is_valid := true }

/-! ## Theorems -/

/-- C5, counterexample: the `DoubleExponentialSmoothing` constructor accepts
`alpha = 2`, outside `[0,1]`, without raising — contradicting the claim that
every smoother in the family fails construction on an out-of-range smoothing
parameter. -/
theorem C5_des_accepts_out_of_range_alpha :
    (DoubleExponentialSmoothing.mk? 2 (1/10)).isSome = true := rfl

/-- C5, amended: the exponential-moving-average constructor succeeds exactly
when `0 ≤ alpha ≤ 1`, the windowed moving-average constructor succeeds exactly
when `window_size ≥ 1`, but the double-exponential constructor performs no
validation and succeeds for every `alpha` and `beta`. -/
theorem C5_ctor_validation (a b : ℚ) (n : ℤ) :
    ((ExponentialMovingAverage.mk? a).isSome ↔ (0 ≤ a ∧ a ≤ 1)) ∧
    ((MovingAverage.mk? n).isSome ↔ 1 ≤ n) ∧
    (DoubleExponentialSmoothing.mk? a b).isSome = true := by
  refine ⟨?_, ?_, rfl⟩
  · unfold ExponentialMovingAverage.mk?
    split <;> simp_all
  · unfold MovingAverage.mk?
    split <;> simp_all

/-- C6: for an EMA constructed with `alpha = a ∈ [0,1]`, the first `update(v)`
returns `v`; every update of a seeded filter with stored value `p` returns
`alpha·u + (1−alpha)·p` and stores that result; in particular the second
update after `update(v)` returns `a·w + (1−a)·v`. -/
theorem C6_ema_update_formula (a v w : ℚ) (_h0 : 0 ≤ a) (_h1 : a ≤ 1) :
    (((ExponentialMovingAverage.new a).update v).1 = v) ∧
    (∀ (e : ExponentialMovingAverage) (p u : ℚ),
      e.initialized = true → e.value = some p →
      (e.update u).1 = e.alpha * u + (1 - e.alpha) * p ∧
      (e.update u).2.value = some ((e.update u).1) ∧
      (e.update u).2.initialized = true) ∧
    ((((ExponentialMovingAverage.new a).update v).2).update w).1
      = a * w + (1 - a) * v := by
  refine ⟨rfl, ?_, ?_⟩
  · intro e p u hi hv
    simp [ExponentialMovingAverage.update, hi, hv]
  · simp [ExponentialMovingAverage.update, ExponentialMovingAverage.new]

/-- C6 witness: instantiation at `a = 1/2`, `v = 4`, `w = 2`. -/
theorem C6_ema_update_formula_witness :
    ((0:ℚ) ≤ 1/2 ∧ (1/2:ℚ) ≤ 1) ∧
    ((((ExponentialMovingAverage.new (1/2)).update 4).2).update 2).1
      = 1/2 * 2 + (1 - 1/2) * 4 :=
  ⟨⟨by norm_num, by norm_num⟩,
    (C6_ema_update_formula (1/2) 4 2 (by norm_num) (by norm_num)).2.2⟩

/-- C8: once the one-euro filter has processed a sample (so `_last_time` and
`_last_value` are set), an update with `timestamp − last_time ≤ 0` returns the
last stable output, leaves the whole filter state unchanged, and cannot raise
(the result is `some`). -/
theorem C8_one_euro_nonpositive_dt (alphaFn : ℚ → ℚ → ℚ) (f : OneEuroFilter)
    (value timestamp lt lv : ℚ)
    (ht : f.last_time = some lt) (hv : f.last_value = some lv)
    (hdt : timestamp - lt ≤ 0) :
    f.update alphaFn value timestamp = some (lv, f) := by
  simp only [OneEuroFilter.update, ht]
  rw [if_pos hdt, hv]
  rfl

/-- C8 witness: a seeded filter queried with an equal timestamp (`dt = 0`). -/
theorem C8_one_euro_nonpositive_dt_witness :
    (let f : OneEuroFilter :=
      ⟨1, 7/1000, 1, some (ExponentialMovingAverage.new (1/2)),
       some (ExponentialMovingAverage.new (1/2)), some 5, some 10⟩
     f.last_time = some 10 ∧ f.last_value = some 5 ∧ (10:ℚ) - 10 ≤ 0 ∧
     f.update (fun _ _ => 0) 3 10 = some (5, f)) :=
  ⟨rfl, rfl, by norm_num,
    C8_one_euro_nonpositive_dt (fun _ _ => 0) _ 3 10 10 5 rfl rfl (by norm_num)⟩

/-- C9: after `reset()`, the next `update(v)` returns exactly `v`, for each of
the four smoothers (with any timestamp for the one-euro filter, and any
abstracted alpha function). -/
theorem C9_reset_then_update_identity (alphaFn : ℚ → ℚ → ℚ) (v ts : ℚ)
    (e : ExponentialMovingAverage) (m : MovingAverage)
    (d : DoubleExponentialSmoothing) (f : OneEuroFilter)
    (hm : 1 ≤ m.window_size) :
    ((e.reset).update v).1 = v ∧
    ((m.reset).update v).1 = v ∧
    ((d.reset).update v).1 = v ∧
    (Option.map Prod.fst ((f.reset).update alphaFn v ts)) = some v := by
  refine ⟨rfl, ?_, ?_, rfl⟩
  · have h : ¬ ((0:ℕ) = m.window_size) := by omega
    simp [MovingAverage.update, MovingAverage.reset, h]
  · simp [DoubleExponentialSmoothing.update, DoubleExponentialSmoothing.reset]

/-- C9 witness: concrete smoother states with nonempty histories. -/
theorem C9_reset_then_update_identity_witness :
    (1 ≤ (3:ℕ)) ∧
    (((ExponentialMovingAverage.mk 1 (some 9) true).reset).update 7).1 = 7 ∧
    (((MovingAverage.mk 3 [1, 2] 3).reset).update 7).1 = 7 ∧
    (((DoubleExponentialSmoothing.mk (1/2) (1/2) (some 4) (some 1) true).reset).update 7).1 = 7 ∧
    (Option.map Prod.fst
      (((OneEuroFilter.mk 1 0 1 none none (some 2) (some 3)).reset).update
        (fun _ _ => 0) 7 11)) = some 7 := by
  have h := C9_reset_then_update_identity (fun _ _ => 0) 7 11
    (ExponentialMovingAverage.mk 1 (some 9) true)
    (MovingAverage.mk 3 [1, 2] 3)
    (DoubleExponentialSmoothing.mk (1/2) (1/2) (some 4) (some 1) true)
    (OneEuroFilter.mk 1 0 1 none none (some 2) (some 3))
    (by norm_num)
  exact ⟨by norm_num, h.1, h.2.1, h.2.2.1, h.2.2.2⟩

/-- C2, counterexample trace: with `threshold = 1/20`, `debounce_ms = 200`,
run `update` at times 1000 (pinch, `IDLE→TRIGGERED`), 1100 (release,
`TRIGGERED→RELEASED`, the debounce clock is set to 1100 here), 1500 (pulse,
`RELEASED→IDLE`), then 1600 (pinch again).  The code moves to `TRIGGERED`
because `1600 − 1100 > 200`, although only 100 ms — less than `debounce_ms` —
have elapsed since the `RELEASED→IDLE` transition at 1500, so the claimed
"TRIGGERED iff distance below threshold and more than `debounce_ms` elapsed
since the most recent `RELEASED→IDLE` transition" is false at this input. -/
theorem C2_counterexample :
    ¬ ((((((PinchDetector.new (1/20) 200 300).update 1000 (1/100)).update
          1100 (1/10)).update 1500 (1/10)).update 1600 (1/100)).state
        = GestureState.TRIGGERED
      ↔ ((1:ℚ)/100 < 1/20 ∧ (1600:ℚ) - 1500 > 200)) := by
  norm_num [PinchDetector.new, PinchDetector.update]

/-- C2, amended: `RELEASED` always moves to `IDLE` on the next call regardless
of the distance; the debounce clock (`_last_trigger_time`) is set to the call
time exactly when the call transitions *into* `RELEASED` (not at
`RELEASED→IDLE`, where it is left unchanged); and from `IDLE` a call at time
`now` moves to `TRIGGERED` iff the distance is below the threshold and
`now − last_trigger_time > debounce_ms` (for a never-released detector
`last_trigger_time` is its initial value 0, so under a wall clock the debounce
condition is satisfied). -/
theorem C2_pinch_update_amended (d : PinchDetector) (now distance : ℚ) :
    (d.state = GestureState.RELEASED →
      (d.update now distance).state = GestureState.IDLE) ∧
    (d.state = GestureState.IDLE →
      ((d.update now distance).state = GestureState.TRIGGERED ↔
        (distance < d.threshold ∧ now - d.last_trigger_time > d.debounce_ms))) ∧
    ((d.update now distance).last_trigger_time =
      if (d.update now distance).state = GestureState.RELEASED then now
      else d.last_trigger_time) := by
  refine ⟨?_, ?_, ?_⟩
  · intro h
    simp [PinchDetector.update, h]
  · intro h
    by_cases hp : distance < d.threshold <;>
      by_cases hd : now - d.last_trigger_time > d.debounce_ms <;>
        simp [PinchDetector.update, h, hp, hd]
  · cases hst : d.state
    · by_cases hp : distance < d.threshold <;>
        by_cases hd : now - d.last_trigger_time > d.debounce_ms <;>
          simp [PinchDetector.update, hst, hp, hd]
    · by_cases hp : distance < d.threshold
      · cases hpst : d.pinch_start_time with
        | none => simp [PinchDetector.update, hst, hp, hpst]
        | some st =>
            by_cases hh : st ≠ 0 ∧ now - st > d.hold_ms <;>
              simp [PinchDetector.update, hst, hp, hpst, hh]
      · simp [PinchDetector.update, hst, hp]
    · by_cases hp : distance < d.threshold <;>
        simp [PinchDetector.update, hst, hp]
    · simp [PinchDetector.update, hst]

/-- C2 witness: a detector in `RELEASED` moves to `IDLE`, and a fresh detector
in `IDLE` with a pinch and a satisfied debounce moves to `TRIGGERED`. -/
theorem C2_pinch_update_amended_witness :
    ((PinchDetector.mk (1/20) 200 300 GestureState.RELEASED none 0 true false).update
        5 0).state = GestureState.IDLE ∧
    (((PinchDetector.new (1/20) 200 300).update 1000 (1/100)).state
        = GestureState.TRIGGERED ↔
      ((1:ℚ)/100 < (1:ℚ)/20 ∧ (1000:ℚ) - 0 > 200)) :=
  ⟨(C2_pinch_update_amended _ 5 0).1 rfl,
   (C2_pinch_update_amended (PinchDetector.new (1/20) 200 300) 1000 (1/100)).2.1 rfl⟩

/-- C1, counterexample: processing invalid hand data while a drag is in
progress returns the *empty* list — the synthesized `DRAG_END` is only handed
to the registered callbacks, so the claim that the returned event list is the
single-element list containing it is false. -/
theorem C1_counterexample :
    dragEngine.is_dragging = true ∧
    (⟨[], false⟩ : HandData).is_valid = false ∧
    (GestureEngine.process (fun _ _ => 0) dragEngine 0 ⟨[], false⟩).returned
      = [] := by
  refine ⟨rfl, rfl, rfl⟩

/-- C1, amended: on invalid hand data the returned list is always empty; if a
drag was in progress exactly one `DRAG_END` at the last known position (or
`(0,0)` if none) is dispatched to the callbacks, otherwise nothing is
dispatched; drag state is cleared, both pinch detectors are reset and the
stored last position is cleared. -/
theorem C1_invalid_hand_amended (dist : Point3D → Point3D → ℚ)
    (e : GestureEngine) (now : ℚ) (hand : HandData)
    (h : hand.is_valid = false) :
    (GestureEngine.process dist e now hand).returned = [] ∧
    (GestureEngine.process dist e now hand).dispatched =
      (if e.is_dragging then
        [⟨GestureType.DRAG_END, e.last_position.getD (0, 0), none⟩]
       else []) ∧
    (GestureEngine.process dist e now hand).engine =
      { e with is_dragging := false,
               left_pinch := e.left_pinch.reset,
               right_pinch := e.right_pinch.reset,
               last_position := none } := by
  simp [GestureEngine.process, GestureEngine.resetOnNoHand, h]

/-- C1 witness: the drag engine processing invalid hand data dispatches the
single `DRAG_END` at the last known position. -/
theorem C1_invalid_hand_amended_witness :
    (⟨[], false⟩ : HandData).is_valid = false ∧
    (GestureEngine.process (fun _ _ => 0) dragEngine 0 ⟨[], false⟩).dispatched
      = [⟨GestureType.DRAG_END, (1/2, 1/2), none⟩] ∧
    (GestureEngine.process (fun _ _ => 0) dragEngine 0 ⟨[], false⟩).engine.is_dragging
      = false := by
  have h := C1_invalid_hand_amended (fun _ _ => 0) dragEngine 0 ⟨[], false⟩ rfl
  refine ⟨rfl, ?_, ?_⟩
  · rw [h.2.1]; rfl
  · rw [h.2.2]

lemma processCursorMove_type (cfg : GestureConfig) (last : Option (ℚ × ℚ))
    (pos : ℚ × ℚ) (g : Gesture)
    (h : GestureEngine.processCursorMove cfg last pos = some g) :
    g.type = GestureType.CURSOR_MOVE := by
  unfold GestureEngine.processCursorMove at h
  cases last with
  | none => simp at h
  | some lp =>
      simp only [] at h
      split at h
      · cases h; rfl
      · simp at h

lemma processLeftPinch_types (s : GestureState) (pos : ℚ × ℚ) (dr : Bool)
    (g : Gesture) (h : g ∈ (GestureEngine.processLeftPinch s pos dr).1) :
    g.type = GestureType.DRAG_START ∨ g.type = GestureType.DRAG_MOVE ∨
    g.type = GestureType.DRAG_END ∨ g.type = GestureType.LEFT_CLICK := by
  unfold GestureEngine.processLeftPinch at h
  cases s <;> cases dr <;> simp at h <;> subst h <;> simp

lemma processRightPinch_type (s : GestureState) (pos : ℚ × ℚ) (g : Gesture)
    (h : GestureEngine.processRightPinch s pos = some g) :
    g.type = GestureType.RIGHT_CLICK := by
  unfold GestureEngine.processRightPinch at h
  split at h
  · cases h; rfl
  · simp at h

/-- C10: the list returned by `GestureEngine.process` never contains a
`SCROLL_UP`, `SCROLL_DOWN` or `NONE` gesture: every returned gesture is a
`CURSOR_MOVE`, `LEFT_CLICK`, `RIGHT_CLICK`, `DRAG_START`, `DRAG_MOVE` or
`DRAG_END`, for every hand input and every reachable engine state. -/
theorem C10_returned_gesture_types (dist : Point3D → Point3D → ℚ)
    (e : GestureEngine) (now : ℚ) (hand : HandData) :
    ∀ g ∈ (GestureEngine.process dist e now hand).returned,
      g.type = GestureType.CURSOR_MOVE ∨ g.type = GestureType.LEFT_CLICK ∨
      g.type = GestureType.RIGHT_CLICK ∨ g.type = GestureType.DRAG_START ∨
      g.type = GestureType.DRAG_MOVE ∨ g.type = GestureType.DRAG_END := by
  intro g hg
  unfold GestureEngine.process at hg
  split at hg
  · simp [GestureEngine.resetOnNoHand] at hg
  · split at hg
    · simp only [List.mem_append, Option.mem_toList, Option.mem_def] at hg
      rcases hg with (h1 | h2) | h3
      · exact Or.inl (processCursorMove_type _ _ _ _ h1)
      · have := processLeftPinch_types _ _ _ _ h2
        tauto
      · have := processRightPinch_type _ _ _ h3
        tauto
    · simp at hg

/-- C10 witness: the cursor engine emits a concrete `CURSOR_MOVE`, which the
theorem classifies. -/
theorem C10_returned_gesture_types_witness :
    (⟨GestureType.CURSOR_MOVE, (1/2, 1/2), some (1/2, 1/2)⟩ : Gesture) ∈
      (GestureEngine.process (fun _ _ => 1) cursorEngine 0 moveHand).returned ∧
    ((⟨GestureType.CURSOR_MOVE, (1/2, 1/2), some (1/2, 1/2)⟩ : Gesture).type
        = GestureType.CURSOR_MOVE ∨
      (⟨GestureType.CURSOR_MOVE, (1/2, 1/2), some (1/2, 1/2)⟩ : Gesture).type
        = GestureType.LEFT_CLICK ∨
      (⟨GestureType.CURSOR_MOVE, (1/2, 1/2), some (1/2, 1/2)⟩ : Gesture).type
        = GestureType.RIGHT_CLICK ∨
      (⟨GestureType.CURSOR_MOVE, (1/2, 1/2), some (1/2, 1/2)⟩ : Gesture).type
        = GestureType.DRAG_START ∨
      (⟨GestureType.CURSOR_MOVE, (1/2, 1/2), some (1/2, 1/2)⟩ : Gesture).type
        = GestureType.DRAG_MOVE ∨
      (⟨GestureType.CURSOR_MOVE, (1/2, 1/2), some (1/2, 1/2)⟩ : Gesture).type
        = GestureType.DRAG_END) := by
  have hmem : (⟨GestureType.CURSOR_MOVE, (1/2, 1/2), some (1/2, 1/2)⟩ : Gesture) ∈
      (GestureEngine.process (fun _ _ => 1) cursorEngine 0 moveHand).returned := by
    norm_num [GestureEngine.process, GestureEngine.processCursorMove,
      GestureEngine.processLeftPinch, GestureEngine.processRightPinch,
      PinchDetector.update, PinchDetector.new, cursorEngine, moveHand,
      HandData.thumb_tip, HandData.index_tip, HandData.middle_tip,
      HandData.getLandmark, abs_of_pos]
  exact ⟨hmem, C10_returned_gesture_types (fun _ _ => 1) cursorEngine 0 moveHand _ hmem⟩

lemma lastN_of_le (l : List ℚ) (n : ℕ) (h : l.length ≤ n) : lastN l n = l := by
  unfold lastN
  rw [Nat.sub_eq_zero_of_le h, List.drop_zero]

lemma length_lastN (l : List ℚ) (n : ℕ) :
    (lastN l n).length = min n l.length := by
  unfold lastN
  rw [List.length_drop]
  omega

lemma lastN_append_lt (l : List ℚ) (v : ℚ) (n : ℕ) (h : l.length < n) :
    lastN (l ++ [v]) n = lastN l n ++ [v] := by
  rw [lastN_of_le l n (le_of_lt h),
      lastN_of_le (l ++ [v]) n (by simp; omega)]

lemma lastN_append_ge (l : List ℚ) (v : ℚ) (n : ℕ) (hn : 1 ≤ n)
    (h : n ≤ l.length) :
    lastN (l ++ [v]) n = (lastN l n).tail ++ [v] := by
  unfold lastN
  rw [List.length_append, List.tail_drop]
  rw [List.drop_append_of_le_length (by simp; omega)]
  congr 2
  simp
  omega

lemma sum_eq_headD_add_tail (l : List ℚ) (h : l ≠ []) :
    l.sum = l.headD 0 + l.tail.sum := by
  cases l with
  | nil => exact absurd rfl h
  | cons a l => simp

/-- One update preserves the window invariant and returns the mean of the
last `min(k, N)` inputs. -/
lemma tracks_step (m : MovingAverage) (hist : List ℚ) (v : ℚ)
    (hw : 1 ≤ m.window_size) (h : m.tracks hist) :
    (m.update v).2.tracks (hist ++ [v]) ∧
    (m.update v).1 = (lastN (hist ++ [v]) m.window_size).sum /
      ((lastN (hist ++ [v]) m.window_size).length : ℚ) ∧
    (m.update v).2.window_size = m.window_size := by
  obtain ⟨hv, hs⟩ := h
  have hlen : m.values.length = min m.window_size hist.length := by
    rw [hv, length_lastN]
  by_cases hcase : hist.length < m.window_size
  · have hne : ¬ (m.values.length = m.window_size) := by omega
    have hL : lastN hist m.window_size = hist :=
      lastN_of_le hist m.window_size (le_of_lt hcase)
    have hnew : lastN (hist ++ [v]) m.window_size = hist ++ [v] :=
      lastN_of_le (hist ++ [v]) m.window_size (by simp; omega)
    unfold MovingAverage.update
    rw [if_neg hne]
    refine ⟨⟨?_, ?_⟩, ?_, rfl⟩
    · simp only [hnew, hv, hL]
    · simp only [hnew, hv, hL, hs, List.sum_append, List.sum_cons,
        List.sum_nil, add_zero]
    · simp only [hnew, hv, hL, hs, List.sum_append, List.sum_cons,
        List.sum_nil, add_zero]
  · have hge : m.window_size ≤ hist.length := by omega
    have heq : m.values.length = m.window_size := by omega
    have hLlen : (lastN hist m.window_size).length = m.window_size := by
      rw [length_lastN]; omega
    have hLne : lastN hist m.window_size ≠ [] := by
      intro hnil
      rw [hnil] at hLlen
      simp at hLlen
      omega
    have hnew : lastN (hist ++ [v]) m.window_size
        = (lastN hist m.window_size).tail ++ [v] :=
      lastN_append_ge hist v m.window_size hw hge
    unfold MovingAverage.update
    rw [if_pos heq]
    refine ⟨⟨?_, ?_⟩, ?_, rfl⟩
    · simp only [hnew, hv]
    · rw [hnew, hv, hs, List.sum_append, List.sum_cons, List.sum_nil,
        add_zero, sum_eq_headD_add_tail (lastN hist m.window_size) hLne]
      ring
    · rw [hnew, hv, hs, List.sum_append, List.sum_cons, List.sum_nil,
        add_zero, sum_eq_headD_add_tail (lastN hist m.window_size) hLne]
      ring_nf

/-- Folding updates preserves the window invariant. -/
lemma tracks_run (vs : List ℚ) (m : MovingAverage) (hist : List ℚ)
    (hw : 1 ≤ m.window_size) (h : m.tracks hist) :
    (m.runState vs).tracks (hist ++ vs) ∧
    (m.runState vs).window_size = m.window_size := by
  induction vs generalizing m hist with
  | nil => simpa [MovingAverage.runState] using h
  | cons v vs ih =>
      have hstep := tracks_step m hist v hw h
      have hws := hstep.2.2
      have := ih (m.update v).2 (hist ++ [v]) (by omega) hstep.1
      rw [MovingAverage.runState]
      constructor
      · have harr : hist ++ v :: vs = (hist ++ [v]) ++ vs := by simp
        rw [harr]
        exact this.1
      · rw [this.2, hws]

/-- C7: for a `MovingAverage` constructed with window size `N ≥ 1`, the value
returned by the `(k+1)`-st update — with `vs` the first `k` inputs and `v` the
next — is the arithmetic mean of the last `min(k+1, N)` inputs; in particular
after `N` updates the output is the mean of all `N` inputs, and after `N+1`
updates the first input (dropped from `lastN`) no longer influences the
output. -/
theorem C7_moving_average_mean (n : ℤ) (m₀ : MovingAverage)
    (hm : MovingAverage.mk? n = some m₀) (vs : List ℚ) (v : ℚ) :
    ((m₀.runState vs).update v).1
      = (lastN (vs ++ [v]) m₀.window_size).sum /
        ((lastN (vs ++ [v]) m₀.window_size).length : ℚ) := by
  unfold MovingAverage.mk? at hm
  split at hm
  · exact absurd hm (by simp)
  · have hm' : m₀ = ⟨n.toNat, [], 0⟩ := by
      cases hm
      rfl
    subst hm'
    have hw : 1 ≤ (⟨n.toNat, [], 0⟩ : MovingAverage).window_size := by
      simp only []
      omega
    have h0 : (⟨n.toNat, [], 0⟩ : MovingAverage).tracks [] := by
      constructor <;> simp [lastN]
    have hrun := tracks_run vs ⟨n.toNat, [], 0⟩ [] hw h0
    have hstep := tracks_step ((⟨n.toNat, [], 0⟩ : MovingAverage).runState vs)
      vs v (by rw [hrun.2]; exact hw) (by simpa using hrun.1)
    rw [hstep.2.1, hrun.2]

/-- C7 witness: window size 2 over inputs `1, 2` then `3` yields the mean of
the last two inputs. -/
theorem C7_moving_average_mean_witness :
    MovingAverage.mk? 2 = some ⟨2, [], 0⟩ ∧
    (((MovingAverage.mk 2 [] 0).runState [1, 2]).update 3).1
      = (lastN ([1, 2] ++ [3]) (MovingAverage.mk 2 [] 0).window_size).sum /
        ((lastN ([1, 2] ++ [3]) (MovingAverage.mk 2 [] 0).window_size).length : ℚ) :=
  ⟨rfl, C7_moving_average_mean 2 ⟨2, [], 0⟩ rfl [1, 2] 3⟩

lemma pyInt_eq_floor (q : ℚ) (h : 0 ≤ q) : pyInt q = ⌊q⌋ := by
  unfold pyInt
  exact if_pos h

lemma le_pyInt (a : ℤ) (v : ℚ) (h : (a:ℚ) ≤ v) : a ≤ pyInt v := by
  unfold pyInt
  split
  · exact Int.le_floor.mpr h
  · calc a = ⌈(a:ℚ)⌉ := (Int.ceil_intCast a).symm
      _ ≤ ⌈v⌉ := Int.ceil_mono h

lemma pyInt_le (b : ℤ) (v : ℚ) (h : v ≤ (b:ℚ)) : pyInt v ≤ b := by
  unfold pyInt
  split
  · calc ⌊v⌋ ≤ ⌊(b:ℚ)⌋ := Int.floor_mono h
      _ = b := Int.floor_intCast b
  · exact Int.ceil_le.mpr h

/-- Truncating a convex blend of two integers in `[m, D−m]` stays in
`[m, D−m]`. -/
lemma blend_pyInt_bounds (m D lpx c : ℤ) (s : ℚ)
    (hs0 : 0 ≤ s) (hs1 : s ≤ 1)
    (hc1 : m ≤ c) (hc2 : c ≤ D - m) (hl1 : m ≤ lpx) (hl2 : lpx ≤ D - m) :
    m ≤ pyInt ((1 - s) * (c:ℚ) + s * (lpx:ℚ)) ∧
    pyInt ((1 - s) * (c:ℚ) + s * (lpx:ℚ)) ≤ D - m := by
  have hc1q : (m:ℚ) ≤ (c:ℚ) := by exact_mod_cast hc1
  have hc2q : (c:ℚ) ≤ (D:ℚ) - (m:ℚ) := by exact_mod_cast hc2
  have hl1q : (m:ℚ) ≤ (lpx:ℚ) := by exact_mod_cast hl1
  have hl2q : (lpx:ℚ) ≤ (D:ℚ) - (m:ℚ) := by exact_mod_cast hl2
  constructor
  · apply le_pyInt
    nlinarith
  · apply pyInt_le
    push_cast
    nlinarith

lemma rawScreen_bounds (cfg : ZoneConfig) (pos : ℚ × ℚ)
    (hmw : 2 * cfg.margin ≤ cfg.screen_width)
    (hmh : 2 * cfg.margin ≤ cfg.screen_height) :
    (cfg.margin ≤ (ZoneMapper.rawScreen cfg pos).1 ∧
      (ZoneMapper.rawScreen cfg pos).1 ≤ cfg.screen_width - cfg.margin) ∧
    (cfg.margin ≤ (ZoneMapper.rawScreen cfg pos).2 ∧
      (ZoneMapper.rawScreen cfg pos).2 ≤ cfg.screen_height - cfg.margin) := by
  unfold ZoneMapper.rawScreen
  exact ⟨⟨le_max_left _ _, max_le (by omega) (min_le_left _ _)⟩,
         ⟨le_max_left _ _, max_le (by omega) (min_le_left _ _)⟩⟩

/-- One `map_position` call stays in the margin box when the stored last
position does. -/
lemma map_position_inMarginBox (cfg : ZoneConfig) (last : Option ScreenPoint)
    (pos : ℚ × ℚ)
    (hs0 : 0 ≤ cfg.smoothing) (hs1 : cfg.smoothing ≤ 1)
    (hmw : 2 * cfg.margin ≤ cfg.screen_width)
    (hmh : 2 * cfg.margin ≤ cfg.screen_height)
    (hlast : ∀ lp, last = some lp → inMarginBox cfg lp) :
    inMarginBox cfg (ZoneMapper.map_position cfg last pos) := by
  obtain ⟨⟨hx1, hx2⟩, hy1, hy2⟩ := rawScreen_bounds cfg pos hmw hmh
  unfold ZoneMapper.map_position
  cases last with
  | none => exact ⟨hx1, hx2, hy1, hy2⟩
  | some lp =>
      by_cases hsm : cfg.smoothing > 0
      · obtain ⟨hl1, hl2, hl3, hl4⟩ := hlast lp rfl
        simp only [if_pos hsm]
        have hbx := blend_pyInt_bounds cfg.margin cfg.screen_width lp.x
          ((ZoneMapper.rawScreen cfg pos).1) cfg.smoothing hs0 hs1 hx1 hx2 hl1 hl2
        have hby := blend_pyInt_bounds cfg.margin cfg.screen_height lp.y
          ((ZoneMapper.rawScreen cfg pos).2) cfg.smoothing hs0 hs1 hy1 hy2 hl3 hl4
        exact ⟨hbx.1, hbx.2, hby.1, hby.2⟩
      · simp only [if_neg hsm]
        exact ⟨hx1, hx2, hy1, hy2⟩

lemma mapRun_inMarginBox_aux (cfg : ZoneConfig) (ps : List (ℚ × ℚ))
    (last : Option ScreenPoint)
    (hs0 : 0 ≤ cfg.smoothing) (hs1 : cfg.smoothing ≤ 1)
    (hmw : 2 * cfg.margin ≤ cfg.screen_width)
    (hmh : 2 * cfg.margin ≤ cfg.screen_height)
    (hlast : ∀ lp, last = some lp → inMarginBox cfg lp) :
    ∀ q ∈ ZoneMapper.mapRun cfg last ps, inMarginBox cfg q := by
  induction ps generalizing last with
  | nil => simp [ZoneMapper.mapRun]
  | cons p ps ih =>
      intro q hq
      rw [ZoneMapper.mapRun] at hq
      simp only [List.mem_cons] at hq
      have hhead := map_position_inMarginBox cfg last p hs0 hs1 hmw hmh hlast
      rcases hq with hq | hq
      · rw [hq]
        exact hhead
      · exact ih (some (ZoneMapper.map_position cfg last p))
          (fun lp hlp => by cases hlp; exact hhead) q hq

/-- C3: for every configuration with `smoothing ∈ [0,1]`,
`2·margin ≤ screen_width` and `2·margin ≤ screen_height`, and every input
sequence with coordinates in `[0,1]`, every point produced by a run of
`map_position` (starting with no stored position) lies in
`[margin, dimension − margin]` on each axis. -/
theorem C3_map_position_margin_box (cfg : ZoneConfig) (ps : List (ℚ × ℚ))
    (hs0 : 0 ≤ cfg.smoothing) (hs1 : cfg.smoothing ≤ 1)
    (hmw : 2 * cfg.margin ≤ cfg.screen_width)
    (hmh : 2 * cfg.margin ≤ cfg.screen_height)
    (_hin : ∀ p ∈ ps, 0 ≤ p.1 ∧ p.1 ≤ 1 ∧ 0 ≤ p.2 ∧ p.2 ≤ 1) :
    ∀ q ∈ ZoneMapper.mapRun cfg none ps, inMarginBox cfg q :=
  mapRun_inMarginBox_aux cfg ps none hs0 hs1 hmw hmh (fun _ h => by cases h)

/-- C3 witness: the default configuration maps `(1/2, 1/2)` to `(960, 540)`,
inside the margin box. -/
theorem C3_map_position_margin_box_witness :
    ((0:ℚ) ≤ 0 ∧ (0:ℚ) ≤ 1 ∧ 2 * (10:ℤ) ≤ 1920 ∧ 2 * (10:ℤ) ≤ 1080) ∧
    (⟨960, 540⟩ : ScreenPoint) ∈
      ZoneMapper.mapRun ⟨1920, 1080, 1, 1/50, true, false, 10, 0⟩ none
        [(1/2, 1/2)] ∧
    inMarginBox ⟨1920, 1080, 1, 1/50, true, false, 10, 0⟩ ⟨960, 540⟩ := by
  have hmem : (⟨960, 540⟩ : ScreenPoint) ∈
      ZoneMapper.mapRun ⟨1920, 1080, 1, 1/50, true, false, 10, 0⟩ none
        [(1/2, 1/2)] := by
    norm_num [ZoneMapper.mapRun, ZoneMapper.map_position, ZoneMapper.rawScreen,
      pyInt]
  refine ⟨by norm_num, hmem, ?_⟩
  exact C3_map_position_margin_box ⟨1920, 1080, 1, 1/50, true, false, 10, 0⟩
    [(1/2, 1/2)] (by norm_num) (by norm_num) (by norm_num) (by norm_num)
    (by norm_num) ⟨960, 540⟩ hmem

/-- The code's pre-smoothing pixel computation agrees with the spec's
(`floor`-based) steps 1–5 whenever the screen dimensions are nonnegative,
since the clamped coordinate makes the scaled product nonnegative. -/
lemma rawScreen_eq_spec (cfg : ZoneConfig) (pos : ℚ × ℚ)
    (hW : 0 ≤ cfg.screen_width) (hH : 0 ≤ cfg.screen_height) :
    ZoneMapper.rawScreen cfg pos = specRawScreen cfg pos := by
  have hW' : (0:ℚ) ≤ (cfg.screen_width : ℚ) := by exact_mod_cast hW
  have hH' : (0:ℚ) ≤ (cfg.screen_height : ℚ) := by exact_mod_cast hH
  unfold ZoneMapper.rawScreen specRawScreen
  rw [Prod.mk.injEq]
  constructor <;> congr 1 <;> congr 1 <;>
    exact pyInt_eq_floor _ (mul_nonneg (le_max_left 0 _) (by assumption))

/-- C4: with `smoothing = s > 0` and a previous mapped point, `map_position`
returns, on each axis, `int((1−s)·new_screen + s·previous_screen)` where
`new_screen` is the spec's pre-smoothing pipeline value: the weight `s`
multiplies the previous point and `1−s` the new sample, the opposite polarity
of the EMA filters. -/
theorem C4_smoothing_blend_polarity (cfg : ZoneConfig) (lp : ScreenPoint)
    (pos : ℚ × ℚ) (hs : 0 < cfg.smoothing)
    (hW : 0 ≤ cfg.screen_width) (hH : 0 ≤ cfg.screen_height) :
    ZoneMapper.map_position cfg (some lp) pos =
      ⟨pyInt ((1 - cfg.smoothing) * ((specRawScreen cfg pos).1 : ℚ)
          + cfg.smoothing * (lp.x : ℚ)),
       pyInt ((1 - cfg.smoothing) * ((specRawScreen cfg pos).2 : ℚ)
          + cfg.smoothing * (lp.y : ℚ))⟩ := by
  unfold ZoneMapper.map_position
  rw [rawScreen_eq_spec cfg pos hW hH]
  simp only [if_pos hs]

/-- C4 witness: default 1920×1080 screen, smoothing `1/2`, previous point
`(0, 0)`, input `(1/2, 1/2)`. -/
theorem C4_smoothing_blend_polarity_witness :
    ((0:ℚ) < 1/2 ∧ (0:ℤ) ≤ 1920 ∧ (0:ℤ) ≤ 1080) ∧
    ZoneMapper.map_position ⟨1920, 1080, 1, 1/50, true, false, 10, 1/2⟩
        (some ⟨0, 0⟩) (1/2, 1/2) =
      ⟨pyInt ((1 - (1:ℚ)/2) *
          ((specRawScreen ⟨1920, 1080, 1, 1/50, true, false, 10, 1/2⟩
              (1/2, 1/2)).1 : ℚ) + (1:ℚ)/2 * ((0:ℤ) : ℚ)),
       pyInt ((1 - (1:ℚ)/2) *
          ((specRawScreen ⟨1920, 1080, 1, 1/50, true, false, 10, 1/2⟩
              (1/2, 1/2)).2 : ℚ) + (1:ℚ)/2 * ((0:ℤ) : ℚ))⟩ :=
  ⟨⟨by norm_num, by norm_num, by norm_num⟩,
    C4_smoothing_blend_polarity ⟨1920, 1080, 1, 1/50, true, false, 10, 1/2⟩
      ⟨0, 0⟩ (1/2, 1/2) (by norm_num) (by norm_num) (by norm_num)⟩

end SpatialTouch
